import Mathlib

/-!
Shallow embedding of `StreamRouteCollection`
(`src/audio_route_manager/StreamRouteCollection.hpp`).

The collection inherits `std::map<std::string, AudioStreamRoute *>`; it is
modelled here as a key-sorted association list of routes, together with the
two per-direction ordered stream lists (`mOrderedStreamList`) and the two
per-direction `RouteMasks` accumulators (`mRoutes`).  Direction is indexed by
`isOut` exactly as in the source (`mRoutes[route->isOut()]`): `true` is
`Direction::Output`, `false` is `Direction::Input`.

`AudioStreamRoute` and `IoStream` are external capabilities of this file
(declared in headers outside the embedded source); their observable interface
is modelled as record fields, and the two mutating route capabilities
(`setStream`, `resetAvailability`) are modelled from the spec where noted.

All mask arithmetic is on `uint32_t` values; `Nat` with `&&&`, `|||`, `^^^`
is exact for it because none of these operations can overflow 32 bits when
their inputs are below `2 ^ 32`.
-/

namespace AudioHal

/-- Bitwise complement of a `uint32_t` value (the C `~` operator on a 32-bit
unsigned integer): exclusive-or with the all-ones 32-bit mask. -/
def uint32Compl (x : Nat) : Nat :=
  x ^^^ 0xFFFFFFFF

/-- The observable interface of an `IoStream` consumed by the collection:
direction, direct flag, started flag, routed-by-policy flag and the
new-route-available flag.  `sid` is the stream identity (the pointer value in
the C++ source, used only to compare identities). -/
structure IoStream where
  sid : Nat
  isOut : Bool
  isDirect : Bool
  isStarted : Bool
  isRoutedByPolicy : Bool
  isNewRouteAvailable : Bool
deriving DecidableEq

/-- The observable interface of an `AudioStreamRoute` consumed by the
collection.  `matchesStream` embeds `isMatchingWithStream`, and
`acceptsStream` is the success predicate of the external `setStream`
capability.  `boundStream` records the identity of the stream currently
attached to the route (none when unattached). -/
structure AudioStreamRoute where
  name : String
  isOut : Bool
  mask : Nat
  isUsed : Bool
  previouslyUsed : Bool
  needReflow : Bool
  needRepath : Bool
  matchesStream : IoStream → Bool
  acceptsStream : IoStream → Bool
  boundStream : Option Nat

/-- Modelled from the spec: the external route capability
`setStream(stream) -> bool` (its implementation lives outside the embedded
source).  On success the stream is attached to the route and `true` is
returned; on failure the route is left unchanged and `false` is returned. -/
def AudioStreamRoute.setStream (r : AudioStreamRoute) (s : IoStream) :
    AudioStreamRoute × Bool :=
  if r.acceptsStream s then ({ r with boundStream := some s.sid }, true)
  else (r, false)

/-- Modelled from the spec: the external route capability
`resetAvailability()` (its implementation lives outside the embedded source).
The in-use flags of a route are the per-cycle state: at cycle start the
previous-cycle flag takes a snapshot of the in-use flag, and the in-use flag
and the stream attachment are cleared for the new cycle. -/
def AudioStreamRoute.resetAvailability (r : AudioStreamRoute) :
    AudioStreamRoute :=
  { r with previouslyUsed := r.isUsed, isUsed := false, boundStream := none }

/-- The per-direction bitmask accumulator `StreamRouteCollection::RouteMasks`:
four `uint32_t` bitfields. -/
structure RouteMasks where
  needReflow : Nat
  needRepath : Nat
  enabled : Nat
  prevEnabled : Nat
deriving DecidableEq

/-- `RouteMasks::setBit(index, mask)`: `mask |= index`. -/
def RouteMasks.setBit (index : Nat) (mask : Nat) : Nat :=
  mask ||| index

/-- `RouteMasks::setEnabledRoute`. -/
def RouteMasks.setEnabledRoute (m : RouteMasks) (index : Nat) : RouteMasks :=
  { m with enabled := RouteMasks.setBit index m.enabled }

/-- `RouteMasks::setNeedReflowRoute`. -/
def RouteMasks.setNeedReflowRoute (m : RouteMasks) (index : Nat) : RouteMasks :=
  { m with needReflow := RouteMasks.setBit index m.needReflow }

/-- `RouteMasks::setNeedRepathRoute`. -/
def RouteMasks.setNeedRepathRoute (m : RouteMasks) (index : Nat) : RouteMasks :=
  { m with needRepath := RouteMasks.setBit index m.needRepath }

/-- `RouteMasks::routingHasChanged`. -/
def RouteMasks.routingHasChanged (m : RouteMasks) : Bool :=
  m.prevEnabled != m.enabled || m.needReflow != 0 || m.needRepath != 0

/-- `RouteMasks::reset`: snapshot `enabled` into `prevEnabled`, then zero the
current-cycle fields. -/
def RouteMasks.reset (m : RouteMasks) : RouteMasks :=
  { needReflow := 0, needRepath := 0, enabled := 0, prevEnabled := m.enabled }

/-- `RouteMasks::unmutedRoutes`. -/
def RouteMasks.unmutedRoutes (m : RouteMasks) : Nat :=
  m.prevEnabled &&& m.enabled &&& uint32Compl m.needReflow

/-- `RouteMasks::routesToMute`. -/
def RouteMasks.routesToMute (m : RouteMasks) : Nat :=
  (m.prevEnabled &&& uint32Compl m.enabled) ||| m.needReflow

/-- `RouteMasks::openedRoutes`. -/
def RouteMasks.openedRoutes (m : RouteMasks) : Nat :=
  m.prevEnabled &&& m.enabled &&& uint32Compl m.needRepath

/-- `RouteMasks::routesToDisable`. -/
def RouteMasks.routesToDisable (m : RouteMasks) : Nat :=
  (m.prevEnabled &&& uint32Compl m.enabled) ||| m.needRepath

/-- The formula the spec gives for `unmutedRoutes`:
`previouslyEnabled & enabled & ~needReflow`. -/
def specUnmutedRoutes (prevEnabled enabled reflow : Nat) : Nat :=
  prevEnabled &&& enabled &&& uint32Compl reflow

/-- The formula the spec gives for `routesToMute`:
`(previouslyEnabled & ~enabled) | needReflow`. -/
def specRoutesToMute (prevEnabled enabled reflow : Nat) : Nat :=
  (prevEnabled &&& uint32Compl enabled) ||| reflow

/-- The formula the spec gives for `openedRoutes`:
`previouslyEnabled & enabled & ~needRepath`. -/
def specOpenedRoutes (prevEnabled enabled repath : Nat) : Nat :=
  prevEnabled &&& enabled &&& uint32Compl repath

/-- The formula the spec gives for `routesToDisable`:
`(previouslyEnabled & ~enabled) | needRepath`. -/
def specRoutesToDisable (prevEnabled enabled repath : Nat) : Nat :=
  (prevEnabled &&& uint32Compl enabled) ||| repath

/-- The whole `StreamRouteCollection` state: the key-sorted route registry,
the two ordered stream lists, and the two `RouteMasks` accumulators. -/
structure StreamRouteCollection where
  routes : List (String × AudioStreamRoute)
  streamsOut : List IoStream
  streamsIn : List IoStream
  masksOut : RouteMasks
  masksIn : RouteMasks

/-- `mOrderedStreamList[isOut]`. -/
def StreamRouteCollection.orderedStreamList (c : StreamRouteCollection)
    (isOut : Bool) : List IoStream :=
  if isOut then c.streamsOut else c.streamsIn

/-- `mRoutes[isOut]`. -/
def StreamRouteCollection.routeMasks (c : StreamRouteCollection)
    (isOut : Bool) : RouteMasks :=
  if isOut then c.masksOut else c.masksIn

/-- `std::map::find` on the key-sorted association list modelling the
registry: the route registered under `key`, if any. -/
def mapFind (key : String) :
    List (String × AudioStreamRoute) → Option AudioStreamRoute
  | [] => none
  | (k, r) :: rest => if k == key then some r else mapFind key rest

/-- Ordered insertion of `std::map::operator[]` on a fresh key: the new entry
is placed at its key-sorted position. -/
def mapInsert (key : String) (v : AudioStreamRoute) :
    List (String × AudioStreamRoute) → List (String × AudioStreamRoute)
  | [] => [(key, v)]
  | (k, r) :: rest =>
    if key < k then (key, v) :: (k, r) :: rest
    else (k, r) :: mapInsert key v rest

/-- The registration key built by `push_back`:
`name + (isOut ? "_Playback" : "_Capture")`. -/
def routeKey (element : AudioStreamRoute) : String :=
  element.name ++ (if element.isOut then "_Playback" else "_Capture")

/-- `StreamRouteCollection::push_back`: reject (warning only) when the key is
already registered, insert under the key otherwise. -/
def StreamRouteCollection.push_back (c : StreamRouteCollection)
    (element : AudioStreamRoute) : StreamRouteCollection :=
  if (mapFind (routeKey element) c.routes).isSome then c
  else { c with routes := mapInsert (routeKey element) element c.routes }

/-- `StreamRouteCollection::addStream`: a direct stream goes to the front of
the direction list, any other stream to the back. -/
def StreamRouteCollection.addStream (c : StreamRouteCollection)
    (stream : IoStream) : StreamRouteCollection :=
  if stream.isDirect then
    if stream.isOut then { c with streamsOut := stream :: c.streamsOut }
    else { c with streamsIn := stream :: c.streamsIn }
  else
    if stream.isOut then { c with streamsOut := c.streamsOut ++ [stream] }
    else { c with streamsIn := c.streamsIn ++ [stream] }

/-- `StreamRouteCollection::removeStream`: remove every occurrence of the
stream reference from its direction list. -/
def StreamRouteCollection.removeStream (c : StreamRouteCollection)
    (stream : IoStream) : StreamRouteCollection :=
  if stream.isOut then
    { c with streamsOut := c.streamsOut.filter (fun s => s.sid != stream.sid) }
  else
    { c with streamsIn := c.streamsIn.filter (fun s => s.sid != stream.sid) }

/-- `StreamRouteCollection::setStreamForRoute`: scan the direction list in
order; the first stream that is started, routed by policy and has no new
route available is tested against the route matching predicate, and on a
match the external `setStream` result is returned immediately. -/
def setStreamForRoute (route : AudioStreamRoute) :
    List IoStream → AudioStreamRoute × Bool
  | [] => (route, false)
  | s :: rest =>
    if s.isStarted && s.isRoutedByPolicy && !s.isNewRouteAvailable then
      if route.matchesStream s then
        route.setStream s
      else
        setStreamForRoute route rest
    else
      setStreamForRoute route rest

/-- The stream eligibility test of `setStreamForRoute`: started, routed by
policy, and no new route already available. -/
def streamEligible (s : IoStream) : Bool :=
  s.isStarted && s.isRoutedByPolicy && !s.isNewRouteAvailable

/-- The mask folding done by `prepareRouting` for one successfully paired
route: `setEnabledRoute(getMask())`, then `setNeedReflowRoute(getMask())`
when the route needs a reflow, then `setNeedRepathRoute(getMask())` when the
route needs a repath. -/
def maskUpdate (r : AudioStreamRoute) (m : RouteMasks) : RouteMasks :=
  let m1 := m.setEnabledRoute r.mask
  let m2 := if r.needReflow then m1.setNeedReflowRoute r.mask else m1
  if r.needRepath then m2.setNeedRepathRoute r.mask else m2

/-- One iteration of the `prepareRouting` loop: the registry entry processed
so far is appended to the accumulator, and on a successful pairing the route
is marked used and its mask is folded into the direction masks. -/
def prepareRouteStep (streams : Bool → List IoStream)
    (acc : List (String × AudioStreamRoute) × RouteMasks × RouteMasks)
    (entry : String × AudioStreamRoute) :
    List (String × AudioStreamRoute) × RouteMasks × RouteMasks :=
  let done := acc.1
  let mo := acc.2.1
  let mi := acc.2.2
  let route := entry.2
  if !route.isUsed then
    let res := setStreamForRoute route (streams route.isOut)
    if res.2 then
      let r := { res.1 with isUsed := true }
      if r.isOut then (done ++ [(entry.1, r)], maskUpdate r mo, mi)
      else (done ++ [(entry.1, r)], mo, maskUpdate r mi)
    else (done ++ [(entry.1, res.1)], mo, mi)
  else (done ++ [entry], mo, mi)

/-- `StreamRouteCollection::prepareRouting`: iterate the registry, pairing
each unused route with a stream and folding masks. -/
def StreamRouteCollection.prepareRouting (c : StreamRouteCollection) :
    StreamRouteCollection :=
  let res := c.routes.foldl (prepareRouteStep c.orderedStreamList)
    ([], c.masksOut, c.masksIn)
  { c with routes := res.1, masksOut := res.2.1, masksIn := res.2.2 }

/-- The effect of `prepareRouting` on a single registry entry, used to state
theorems about the loop (the loop transforms each entry independently). -/
def prepareOneRoute (streams : Bool → List IoStream)
    (route : AudioStreamRoute) : AudioStreamRoute :=
  if !route.isUsed then
    let res := setStreamForRoute route (streams route.isOut)
    if res.2 then { res.1 with isUsed := true } else res.1
  else route

/-- `StreamRouteCollection::routingHasChanged`: either direction changed. -/
def StreamRouteCollection.routingHasChanged (c : StreamRouteCollection) :
    Bool :=
  c.masksOut.routingHasChanged || c.masksIn.routingHasChanged

/-- Per-direction query `unmutedRoutes`. -/
def StreamRouteCollection.unmutedRoutes (c : StreamRouteCollection)
    (dir : Bool) : Nat :=
  (c.routeMasks dir).unmutedRoutes

/-- Per-direction query `routesToMute`. -/
def StreamRouteCollection.routesToMute (c : StreamRouteCollection)
    (dir : Bool) : Nat :=
  (c.routeMasks dir).routesToMute

/-- Per-direction query `openedRoutes`. -/
def StreamRouteCollection.openedRoutes (c : StreamRouteCollection)
    (dir : Bool) : Nat :=
  (c.routeMasks dir).openedRoutes

/-- Per-direction query `routesToDisable`. -/
def StreamRouteCollection.routesToDisable (c : StreamRouteCollection)
    (dir : Bool) : Nat :=
  (c.routeMasks dir).routesToDisable

/-- `StreamRouteCollection::resetAvailability`: reset both direction masks
and call the availability reset of every registered route. -/
def StreamRouteCollection.resetAvailability (c : StreamRouteCollection) :
    StreamRouteCollection :=
  { c with
    masksOut := c.masksOut.reset
    masksIn := c.masksIn.reset
    routes := c.routes.map (fun e => (e.1, e.2.resetAvailability)) }

/-- One device-close call issued by `disableRoutes`: the route it targets and
the phase flag passed to `unroute`. -/
structure UnrouteCall where
  routeName : String
  isPostDisable : Bool
deriving DecidableEq

/-- One device-open call issued by `enableRoutes`: the route it targets and
the phase flag passed to `route`. -/
structure RouteCall where
  routeName : String
  isPreEnable : Bool
deriving DecidableEq

/-- `StreamRouteCollection::disableRoutes`: the sequence of `unroute` calls
the loop issues, one for every route that was used and is no longer, or that
needs a repath. -/
def StreamRouteCollection.disableRoutes (c : StreamRouteCollection)
    (isPostDisable : Bool) : List UnrouteCall :=
  c.routes.foldl (fun calls entry =>
    if (entry.2.previouslyUsed && !entry.2.isUsed) || entry.2.needRepath then
      calls ++ [⟨entry.2.name, isPostDisable⟩]
    else calls) []

/-- `StreamRouteCollection::enableRoutes`: the sequence of `route` calls the
loop issues, one for every route that was not used and now is, or that needs
a repath (a failing call is logged and the loop continues). -/
def StreamRouteCollection.enableRoutes (c : StreamRouteCollection)
    (isPreEnable : Bool) : List RouteCall :=
  c.routes.foldl (fun calls entry =>
    if (!entry.2.previouslyUsed && entry.2.isUsed) || entry.2.needRepath then
      calls ++ [⟨entry.2.name, isPreEnable⟩]
    else calls) []

/-- `StreamRouteCollection::postDisableRoutes`: `disableRoutes(true)`. -/
def StreamRouteCollection.postDisableRoutes (c : StreamRouteCollection) :
    List UnrouteCall :=
  c.disableRoutes true

/-- `StreamRouteCollection::preEnableRoutes`: `enableRoutes(true)`. -/
def StreamRouteCollection.preEnableRoutes (c : StreamRouteCollection) :
    List RouteCall :=
  c.enableRoutes true

/-- A C++ evaluation that may be undefined behaviour: `undef` marks an
evaluation the C++ abstract machine leaves undefined. -/
inductive CppVal (α : Type) where
  | undef : CppVal α
  | val : α → CppVal α
deriving DecidableEq

/-- `StreamRouteCollection::getVoiceStreamRoute`: dereference `begin()` of
the output stream list and return it.  On an empty list the dereference of
`begin()` (which then equals `end()`) is undefined behaviour; on a nonempty
list the head element is returned (the `*it == NULL` guard only logs and
never fires, since `addStream` stores only valid references). -/
def StreamRouteCollection.getVoiceStreamRoute (c : StreamRouteCollection) :
    CppVal IoStream :=
  match c.streamsOut with
  | [] => CppVal.undef
  | s :: _ => CppVal.val s

/-- Modelled from the spec: `firstOutputStream() -> Stream|none` returns the
head of the output list, and none (after reporting an error-class condition)
when the list is empty. -/
def firstOutputStreamSpec (c : StreamRouteCollection) : Option IoStream :=
  c.streamsOut.head?

/-! ### Theorems -/

/-- Claim C1: for every direction and every `RouteMasks` state, the derived
route-set queries equal the bitmask formulas of the spec, and
`routingHasChanged` is true exactly when the previously enabled mask differs
from the enabled mask or one of the reflow/repath masks is nonzero. -/
theorem C1_derived_route_set_queries (c : StreamRouteCollection) (dir : Bool) :
    c.unmutedRoutes dir
      = specUnmutedRoutes (c.routeMasks dir).prevEnabled
          (c.routeMasks dir).enabled (c.routeMasks dir).needReflow
  ∧ c.routesToMute dir
      = specRoutesToMute (c.routeMasks dir).prevEnabled
          (c.routeMasks dir).enabled (c.routeMasks dir).needReflow
  ∧ c.openedRoutes dir
      = specOpenedRoutes (c.routeMasks dir).prevEnabled
          (c.routeMasks dir).enabled (c.routeMasks dir).needRepath
  ∧ c.routesToDisable dir
      = specRoutesToDisable (c.routeMasks dir).prevEnabled
          (c.routeMasks dir).enabled (c.routeMasks dir).needRepath
  ∧ ((c.routeMasks dir).routingHasChanged = true ↔
      ((c.routeMasks dir).prevEnabled ≠ (c.routeMasks dir).enabled
        ∨ (c.routeMasks dir).needReflow ≠ 0
        ∨ (c.routeMasks dir).needRepath ≠ 0)) := by
  refine ⟨rfl, rfl, rfl, rfl, ?_⟩
  simp [RouteMasks.routingHasChanged, bne_iff_ne, Bool.or_eq_true, or_assoc]

/-- Claim C4: `resetAvailability` moves `enabled` into `prevEnabled`, zeroes
the three current-cycle masks of both directions, applies the per-route
availability reset to every registered route, and neither creates nor
destroys routes or streams. -/
theorem C4_resetAvailability_effect (c : StreamRouteCollection) :
    c.resetAvailability.masksOut.prevEnabled = c.masksOut.enabled
  ∧ c.resetAvailability.masksOut.enabled = 0
  ∧ c.resetAvailability.masksOut.needReflow = 0
  ∧ c.resetAvailability.masksOut.needRepath = 0
  ∧ c.resetAvailability.masksIn.prevEnabled = c.masksIn.enabled
  ∧ c.resetAvailability.masksIn.enabled = 0
  ∧ c.resetAvailability.masksIn.needReflow = 0
  ∧ c.resetAvailability.masksIn.needRepath = 0
  ∧ c.resetAvailability.routes
      = c.routes.map (fun e => (e.1, e.2.resetAvailability))
  ∧ c.resetAvailability.routes.length = c.routes.length
  ∧ c.resetAvailability.streamsOut = c.streamsOut
  ∧ c.resetAvailability.streamsIn = c.streamsIn := by
  refine ⟨rfl, rfl, rfl, rfl, rfl, rfl, rfl, rfl, rfl, ?_, rfl, rfl⟩
  simp [StreamRouteCollection.resetAvailability]

/-- Claim C5, counterexample: with `enabled = 1` and `prevEnabled = 0`, one
reset yields `prevEnabled = 1` but a second reset lowers it to `0`, so reset
twice differs from reset once and `prevEnabled` is not left untouched. -/
theorem C5_counterexample :
    ¬ (RouteMasks.reset (RouteMasks.reset ⟨0, 0, 1, 0⟩)
          = RouteMasks.reset ⟨0, 0, 1, 0⟩
        ∧ (RouteMasks.reset ⟨0, 0, 1, 0⟩).prevEnabled
          = (⟨0, 0, 1, 0⟩ : RouteMasks).prevEnabled) := by
  decide

/-- Claim C5 as amended: `reset` zeroes the three current-cycle fields and
sets `prevEnabled` to the old `enabled` (it does not preserve `prevEnabled`);
hence a second reset always yields the all-zero state, and reset twice equals
reset once exactly when `enabled` was already zero. -/
theorem C5_reset_twice (m : RouteMasks) :
    m.reset.reset = (⟨0, 0, 0, 0⟩ : RouteMasks)
  ∧ m.reset = (⟨0, 0, 0, m.enabled⟩ : RouteMasks)
  ∧ (m.reset.reset = m.reset ↔ m.enabled = 0) := by
  refine ⟨rfl, rfl, ?_⟩
  simp [RouteMasks.reset, RouteMasks.mk.injEq, eq_comm]

/-- Claim C6: on an empty output stream list, `getVoiceStreamRoute`
dereferences `begin()` of an empty list, which is undefined behaviour rather
than the defined none-with-error result the spec requires; on a nonempty
list it returns the head. -/
theorem C6_getVoiceStreamRoute_empty_undefined :
    StreamRouteCollection.getVoiceStreamRoute
        ⟨[], [], [], ⟨0, 0, 0, 0⟩, ⟨0, 0, 0, 0⟩⟩ = CppVal.undef
  ∧ firstOutputStreamSpec ⟨[], [], [], ⟨0, 0, 0, 0⟩, ⟨0, 0, 0, 0⟩⟩ = none
  ∧ ∀ (routes : List (String × AudioStreamRoute)) (s : IoStream)
      (rest streamsIn : List IoStream) (mo mi : RouteMasks),
      StreamRouteCollection.getVoiceStreamRoute
        ⟨routes, s :: rest, streamsIn, mo, mi⟩ = CppVal.val s :=
  ⟨rfl, rfl, fun _ _ _ _ _ _ => rfl⟩

/-- The `disableRoutes` fold issues one `unroute` call per route passing the
transition predicate, in registry order, appended after any accumulator. -/
lemma disableRoutes_foldl (b : Bool) :
    ∀ (l : List (String × AudioStreamRoute)) (acc : List UnrouteCall),
      l.foldl (fun calls entry =>
        if (entry.2.previouslyUsed && !entry.2.isUsed) || entry.2.needRepath
        then calls ++ [⟨entry.2.name, b⟩] else calls) acc
      = acc ++ (l.filter
          (fun e => (e.2.previouslyUsed && !e.2.isUsed) || e.2.needRepath)).map
          (fun e => (⟨e.2.name, b⟩ : UnrouteCall)) := by
  intro l
  induction l with
  | nil => intro acc; simp
  | cons x xs ih =>
    intro acc
    rw [List.foldl_cons]
    by_cases h : ((x.2.previouslyUsed && !x.2.isUsed) || x.2.needRepath) = true
    · rw [if_pos h, ih]
      simp [List.filter_cons, h]
    · rw [if_neg h, ih]
      simp [List.filter_cons, h]

/-- The `enableRoutes` fold issues one `route` call per route passing the
transition predicate, in registry order, appended after any accumulator. -/
lemma enableRoutes_foldl (b : Bool) :
    ∀ (l : List (String × AudioStreamRoute)) (acc : List RouteCall),
      l.foldl (fun calls entry =>
        if (!entry.2.previouslyUsed && entry.2.isUsed) || entry.2.needRepath
        then calls ++ [⟨entry.2.name, b⟩] else calls) acc
      = acc ++ (l.filter
          (fun e => (!e.2.previouslyUsed && e.2.isUsed) || e.2.needRepath)).map
          (fun e => (⟨e.2.name, b⟩ : RouteCall)) := by
  intro l
  induction l with
  | nil => intro acc; simp
  | cons x xs ih =>
    intro acc
    rw [List.foldl_cons]
    by_cases h : ((!x.2.previouslyUsed && x.2.isUsed) || x.2.needRepath) = true
    · rw [if_pos h, ih]
      simp [List.filter_cons, h]
    · rw [if_neg h, ih]
      simp [List.filter_cons, h]

/-- Claim C3: `disableRoutes` calls `unroute(isPostDisable)` exactly on the
routes that were used and are no longer, or need a repath; `enableRoutes`
calls `route(isPreEnable)` exactly on the routes that were not used and now
are, or need a repath; no other route is called; and the pre/post variants
reuse the very same predicate (they are the same functions at phase flag
`true`). -/
theorem C3_enable_disable_calls (c : StreamRouteCollection) (b : Bool) :
    c.disableRoutes b
      = (c.routes.filter
          (fun e => (e.2.previouslyUsed && !e.2.isUsed) || e.2.needRepath)).map
          (fun e => (⟨e.2.name, b⟩ : UnrouteCall))
  ∧ c.enableRoutes b
      = (c.routes.filter
          (fun e => (!e.2.previouslyUsed && e.2.isUsed) || e.2.needRepath)).map
          (fun e => (⟨e.2.name, b⟩ : RouteCall))
  ∧ c.postDisableRoutes = c.disableRoutes true
  ∧ c.preEnableRoutes = c.enableRoutes true := by
  refine ⟨?_, ?_, rfl, rfl⟩
  · rw [StreamRouteCollection.disableRoutes, disableRoutes_foldl]
    simp
  · rw [StreamRouteCollection.enableRoutes, enableRoutes_foldl]
    simp

/-- Inserting a fresh key into the association-list map makes it findable
under that key. -/
lemma mapFind_mapInsert_self (key : String) (v : AudioStreamRoute) :
    ∀ l : List (String × AudioStreamRoute),
      mapFind key l = none → mapFind key (mapInsert key v l) = some v := by
  intro l
  induction l with
  | nil =>
    intro _
    simp [mapInsert, mapFind]
  | cons x xs ih =>
    intro hnone
    rw [mapFind] at hnone
    by_cases hk : (x.1 == key) = true
    · simp [hk] at hnone
    · cases x with
    | mk k r =>
      simp only at hk
      rw [mapInsert]
      by_cases hlt : key < k
      · simp [hlt, mapFind]
      · simp only [hk] at hnone
        simp only [hlt, if_neg, ite_false]
        rw [mapFind]
        simp [hk, ih hnone]

/-- Claim C7: registering a route under an already-present key leaves the
collection completely unchanged (no overwrite, warning only), while a fresh
key is inserted at its key-sorted position and is then found under that
key; streams and masks are never touched by registration. -/
theorem C7_push_back_duplicate_rejected (c : StreamRouteCollection)
    (e : AudioStreamRoute) :
    ((mapFind (routeKey e) c.routes).isSome = true → c.push_back e = c)
  ∧ (mapFind (routeKey e) c.routes = none →
      (c.push_back e).routes = mapInsert (routeKey e) e c.routes
      ∧ mapFind (routeKey e) (c.push_back e).routes = some e
      ∧ (c.push_back e).streamsOut = c.streamsOut
      ∧ (c.push_back e).streamsIn = c.streamsIn
      ∧ (c.push_back e).masksOut = c.masksOut
      ∧ (c.push_back e).masksIn = c.masksIn) := by
  constructor
  · intro hdup
    simp [StreamRouteCollection.push_back, hdup]
  · intro hfresh
    have hnot : (mapFind (routeKey e) c.routes).isSome = false := by
      simp [hfresh]
    refine ⟨?_, ?_, ?_, ?_, ?_, ?_⟩ <;>
      simp [StreamRouteCollection.push_back, hnot, hfresh,
        mapFind_mapInsert_self]

/-- Witness for claim C7: a route with a fresh key in the empty registry is
inserted and found. -/
theorem C7_witness :
    mapFind "R_Playback"
        (StreamRouteCollection.mk [] [] [] ⟨0, 0, 0, 0⟩ ⟨0, 0, 0, 0⟩ |>.push_back
          ⟨"R", true, 1, false, false, false, false, fun _ => true,
            fun _ => true, none⟩).routes
      = some ⟨"R", true, 1, false, false, false, false, fun _ => true,
          fun _ => true, none⟩ :=
  ((C7_push_back_duplicate_rejected
      (StreamRouteCollection.mk [] [] [] ⟨0, 0, 0, 0⟩ ⟨0, 0, 0, 0⟩)
      ⟨"R", true, 1, false, false, false, false, fun _ => true,
        fun _ => true, none⟩).2 rfl).2.1

/-- The scan of `setStreamForRoute` is exactly: find the first eligible
stream matching the route, and hand the route to the external `setStream` of
that single stream; when no such stream exists the route is returned
unchanged with failure. -/
lemma setStreamForRoute_eq_find (route : AudioStreamRoute)
    (l : List IoStream) :
    setStreamForRoute route l =
      match l.find? (fun t => streamEligible t && route.matchesStream t) with
      | none => (route, false)
      | some s => route.setStream s := by
  induction l with
  | nil => rfl
  | cons s rest ih =>
    rw [setStreamForRoute]
    by_cases h1 : (s.isStarted && s.isRoutedByPolicy && !s.isNewRouteAvailable)
      = true
    · by_cases h2 : route.matchesStream s = true
      · rw [if_pos h1, if_pos h2, List.find?_cons]
        have : (streamEligible s && route.matchesStream s) = true := by
          simp [streamEligible, h1, h2]
        simp [this]
      · rw [if_pos h1, if_neg h2, List.find?_cons]
        have : (streamEligible s && route.matchesStream s) = false := by
          simp [streamEligible, h2]
        simp [this, ih]
    · rw [if_neg h1, List.find?_cons]
      have h1f : (s.isStarted && s.isRoutedByPolicy && !s.isNewRouteAvailable)
          = false := by
        simp only [Bool.not_eq_true] at h1
        exact h1
      have : (streamEligible s && route.matchesStream s) = false := by
        simp [streamEligible, h1f]
      simp [this, ih]

/-- One `prepareRouting` iteration appends exactly the `prepareOneRoute`
image of the processed entry, for some masks. -/
lemma prepareRouteStep_fst (streams : Bool → List IoStream)
    (done : List (String × AudioStreamRoute)) (mo mi : RouteMasks)
    (entry : String × AudioStreamRoute) :
    ∃ mo2 mi2, prepareRouteStep streams (done, mo, mi) entry
      = (done ++ [(entry.1, prepareOneRoute streams entry.2)], mo2, mi2) := by
  by_cases hu : entry.2.isUsed = true
  · refine ⟨mo, mi, ?_⟩
    simp [prepareRouteStep, prepareOneRoute, hu]
  · simp only [Bool.not_eq_true] at hu
    by_cases hr : (setStreamForRoute entry.2 (streams entry.2.isOut)).2 = true
    · by_cases ho : (setStreamForRoute entry.2 (streams entry.2.isOut)).1.isOut
        = true
      · refine ⟨maskUpdate
          { (setStreamForRoute entry.2 (streams entry.2.isOut)).1 with
            isUsed := true } mo, mi, ?_⟩
        simp [prepareRouteStep, prepareOneRoute, hu, hr, ho]
      · refine ⟨mo, maskUpdate
          { (setStreamForRoute entry.2 (streams entry.2.isOut)).1 with
            isUsed := true } mi, ?_⟩
        simp [prepareRouteStep, prepareOneRoute, hu, hr, ho]
    · refine ⟨mo, mi, ?_⟩
      simp [prepareRouteStep, prepareOneRoute, hu, hr]

/-- The route list produced by the `prepareRouting` fold is the pointwise
`prepareOneRoute` image of the input registry. -/
lemma prepareRouting_foldl_fst (streams : Bool → List IoStream) :
    ∀ (l done : List (String × AudioStreamRoute)) (mo mi : RouteMasks),
      (l.foldl (prepareRouteStep streams) (done, mo, mi)).1
        = done ++ l.map (fun e => (e.1, prepareOneRoute streams e.2)) := by
  intro l
  induction l with
  | nil => intro done mo mi; simp
  | cons e rest ih =>
    intro done mo mi
    rw [List.foldl_cons]
    obtain ⟨mo2, mi2, hstep⟩ := prepareRouteStep_fst streams done mo mi e
    rw [hstep, ih]
    simp

/-- Claim C2 and C10 use this growth order on the accumulator masks: every
bit already set stays set in the three current-cycle fields, and
`prevEnabled` is untouched. -/
def maskGrows (m m2 : RouteMasks) : Prop :=
  (∀ i, m.enabled.testBit i = true → m2.enabled.testBit i = true)
  ∧ (∀ i, m.needReflow.testBit i = true → m2.needReflow.testBit i = true)
  ∧ (∀ i, m.needRepath.testBit i = true → m2.needRepath.testBit i = true)
  ∧ m2.prevEnabled = m.prevEnabled

lemma maskGrows_refl (m : RouteMasks) : maskGrows m m :=
  ⟨fun _ h => h, fun _ h => h, fun _ h => h, rfl⟩

lemma maskGrows_trans {a b c : RouteMasks} (h1 : maskGrows a b)
    (h2 : maskGrows b c) : maskGrows a c :=
  ⟨fun i h => h2.1 i (h1.1 i h), fun i h => h2.2.1 i (h1.2.1 i h),
   fun i h => h2.2.2.1 i (h1.2.2.1 i h), h2.2.2.2.trans h1.2.2.2⟩

/-- The enabled field after `maskUpdate` is the old field with the route
mask folded in by bitwise or. -/
lemma maskUpdate_enabled (r : AudioStreamRoute) (m : RouteMasks) :
    (maskUpdate r m).enabled = m.enabled ||| r.mask := by
  cases hf : r.needReflow <;> cases hp : r.needRepath <;>
    simp [maskUpdate, hf, hp, RouteMasks.setEnabledRoute,
      RouteMasks.setNeedReflowRoute, RouteMasks.setNeedRepathRoute,
      RouteMasks.setBit]

/-- The reflow field after `maskUpdate`: the route mask is folded in exactly
when the route flags a reflow. -/
lemma maskUpdate_needReflow (r : AudioStreamRoute) (m : RouteMasks) :
    (maskUpdate r m).needReflow
      = if r.needReflow then m.needReflow ||| r.mask else m.needReflow := by
  cases hf : r.needReflow <;> cases hp : r.needRepath <;>
    simp [maskUpdate, hf, hp, RouteMasks.setEnabledRoute,
      RouteMasks.setNeedReflowRoute, RouteMasks.setNeedRepathRoute,
      RouteMasks.setBit]

/-- The repath field after `maskUpdate`: the route mask is folded in exactly
when the route flags a repath. -/
lemma maskUpdate_needRepath (r : AudioStreamRoute) (m : RouteMasks) :
    (maskUpdate r m).needRepath
      = if r.needRepath then m.needRepath ||| r.mask else m.needRepath := by
  cases hf : r.needReflow <;> cases hp : r.needRepath <;>
    simp [maskUpdate, hf, hp, RouteMasks.setEnabledRoute,
      RouteMasks.setNeedReflowRoute, RouteMasks.setNeedRepathRoute,
      RouteMasks.setBit]

/-- `maskUpdate` never touches `prevEnabled`. -/
lemma maskUpdate_prevEnabled (r : AudioStreamRoute) (m : RouteMasks) :
    (maskUpdate r m).prevEnabled = m.prevEnabled := by
  cases hf : r.needReflow <;> cases hp : r.needRepath <;>
    simp [maskUpdate, hf, hp, RouteMasks.setEnabledRoute,
      RouteMasks.setNeedReflowRoute, RouteMasks.setNeedRepathRoute,
      RouteMasks.setBit]

lemma maskGrows_maskUpdate (r : AudioStreamRoute) (m : RouteMasks) :
    maskGrows m (maskUpdate r m) := by
  refine ⟨?_, ?_, ?_, maskUpdate_prevEnabled r m⟩
  · intro i h
    rw [maskUpdate_enabled, Nat.testBit_lor, h]
    rfl
  · intro i h
    rw [maskUpdate_needReflow]
    cases hf : r.needReflow
    · simpa using h
    · rw [if_pos rfl, Nat.testBit_lor, h]
      rfl
  · intro i h
    rw [maskUpdate_needRepath]
    cases hp : r.needRepath
    · simpa using h
    · rw [if_pos rfl, Nat.testBit_lor, h]
      rfl

/-- One `prepareRouting` iteration only grows both direction masks. -/
lemma prepareRouteStep_maskGrows (streams : Bool → List IoStream)
    (done : List (String × AudioStreamRoute)) (mo mi : RouteMasks)
    (entry : String × AudioStreamRoute) :
    maskGrows mo (prepareRouteStep streams (done, mo, mi) entry).2.1
  ∧ maskGrows mi (prepareRouteStep streams (done, mo, mi) entry).2.2 := by
  by_cases hu : entry.2.isUsed = true
  · constructor <;> simp [prepareRouteStep, hu, maskGrows_refl]
  · simp only [Bool.not_eq_true] at hu
    by_cases hr : (setStreamForRoute entry.2 (streams entry.2.isOut)).2 = true
    · by_cases ho : (setStreamForRoute entry.2 (streams entry.2.isOut)).1.isOut
        = true
      · constructor <;>
          simp [prepareRouteStep, hu, hr, ho, maskGrows_refl,
            maskGrows_maskUpdate]
      · constructor <;>
          simp [prepareRouteStep, hu, hr, ho, maskGrows_refl,
            maskGrows_maskUpdate]
    · constructor <;> simp [prepareRouteStep, hu, hr, maskGrows_refl]

/-- The whole `prepareRouting` fold only grows both direction masks. -/
lemma prepareRouting_foldl_maskGrows (streams : Bool → List IoStream) :
    ∀ (l done : List (String × AudioStreamRoute)) (mo mi : RouteMasks),
      maskGrows mo ((l.foldl (prepareRouteStep streams) (done, mo, mi)).2.1)
      ∧ maskGrows mi
          ((l.foldl (prepareRouteStep streams) (done, mo, mi)).2.2) := by
  intro l
  induction l with
  | nil => intro done mo mi; exact ⟨maskGrows_refl mo, maskGrows_refl mi⟩
  | cons e rest ih =>
    intro done mo mi
    rw [List.foldl_cons]
    obtain ⟨hmo, hmi⟩ := prepareRouteStep_maskGrows streams done mo mi e
    obtain ⟨hmo2, hmi2⟩ := ih (prepareRouteStep streams (done, mo, mi) e).1
      (prepareRouteStep streams (done, mo, mi) e).2.1
      (prepareRouteStep streams (done, mo, mi) e).2.2
    exact ⟨maskGrows_trans hmo hmo2, maskGrows_trans hmi hmi2⟩

/-- Claim C10: `prepareRouting` is monotone on the aggregator masks: in both
directions every bit of `enabled`, `needReflow` and `needRepath` that was set
before the match phase is still set after it, and `prevEnabled` is left
unchanged. -/
theorem C10_prepareRouting_monotone (c : StreamRouteCollection) (d : Bool) :
    (∀ i, (c.routeMasks d).enabled.testBit i = true →
        (c.prepareRouting.routeMasks d).enabled.testBit i = true)
  ∧ (∀ i, (c.routeMasks d).needReflow.testBit i = true →
        (c.prepareRouting.routeMasks d).needReflow.testBit i = true)
  ∧ (∀ i, (c.routeMasks d).needRepath.testBit i = true →
        (c.prepareRouting.routeMasks d).needRepath.testBit i = true)
  ∧ (c.prepareRouting.routeMasks d).prevEnabled
      = (c.routeMasks d).prevEnabled := by
  have h := prepareRouting_foldl_maskGrows c.orderedStreamList c.routes []
    c.masksOut c.masksIn
  cases d with
  | false =>
    simpa [StreamRouteCollection.routeMasks,
      StreamRouteCollection.prepareRouting, maskGrows] using h.2
  | true =>
    simpa [StreamRouteCollection.routeMasks,
      StreamRouteCollection.prepareRouting, maskGrows] using h.1

/-- A concrete state exercising claim C10: direction masks `enabled = 1`,
`needReflow = 2`, `needRepath = 4`, `prevEnabled = 8`, empty registry. -/
def sampleCollectionC10 : StreamRouteCollection :=
  ⟨[], [], [], ⟨2, 4, 1, 8⟩, ⟨0, 0, 0, 0⟩⟩

/-- Witness for claim C10 at a concrete input. -/
theorem C10_witness :
    (sampleCollectionC10.prepareRouting.routeMasks true).enabled.testBit 0
        = true
  ∧ (sampleCollectionC10.prepareRouting.routeMasks true).prevEnabled
        = (sampleCollectionC10.routeMasks true).prevEnabled :=
  ⟨(C10_prepareRouting_monotone sampleCollectionC10 true).1 0 (by decide),
   (C10_prepareRouting_monotone sampleCollectionC10 true).2.2.2⟩

/-- A `prepareRouting` iteration on an unused route whose scan succeeded:
the route is appended marked used, and the direction masks of the route are
folded through `maskUpdate`. -/
lemma prepareRouteStep_success (streams : Bool → List IoStream)
    (acc : List (String × AudioStreamRoute) × RouteMasks × RouteMasks)
    (k : String) (route route2 : AudioStreamRoute)
    (hunused : route.isUsed = false)
    (hset : setStreamForRoute route (streams route.isOut) = (route2, true)) :
    prepareRouteStep streams acc (k, route)
      = (acc.1 ++ [(k, { route2 with isUsed := true })],
         if route2.isOut then
           maskUpdate { route2 with isUsed := true } acc.2.1
         else acc.2.1,
         if route2.isOut then acc.2.2
         else maskUpdate { route2 with isUsed := true } acc.2.2) := by
  cases ho : route2.isOut <;>
    simp [prepareRouteStep, hunused, hset, ho]

/-- Claim C2: for an unused route whose direction stream list has a first
eligible matching stream accepted by the external `setStream`, the scan
pairs exactly that stream with the route (a single `setStream` call, so at
most one stream is bound to the route), `prepareRouting` marks the route
used and bound to that stream, and the route mask is folded into the
direction `enabled` mask, and into `needReflow`/`needRepath` when the route
flags them. -/
theorem C2_match_phase (c : StreamRouteCollection) (k : String)
    (route : AudioStreamRoute) (s : IoStream)
    (hmem : (k, route) ∈ c.routes)
    (hunused : route.isUsed = false)
    (hfind : (c.orderedStreamList route.isOut).find?
        (fun t => streamEligible t && route.matchesStream t) = some s)
    (hok : route.acceptsStream s = true) :
    setStreamForRoute route (c.orderedStreamList route.isOut)
      = ({ route with boundStream := some s.sid }, true)
  ∧ (k, { route with boundStream := some s.sid, isUsed := true })
      ∈ c.prepareRouting.routes
  ∧ (∀ i, route.mask.testBit i = true →
      (c.prepareRouting.routeMasks route.isOut).enabled.testBit i = true)
  ∧ (route.needReflow = true → ∀ i, route.mask.testBit i = true →
      (c.prepareRouting.routeMasks route.isOut).needReflow.testBit i = true)
  ∧ (route.needRepath = true → ∀ i, route.mask.testBit i = true →
      (c.prepareRouting.routeMasks route.isOut).needRepath.testBit i
        = true) := by
  have hset : setStreamForRoute route (c.orderedStreamList route.isOut)
      = ({ route with boundStream := some s.sid }, true) := by
    rw [setStreamForRoute_eq_find, hfind]
    simp [AudioStreamRoute.setStream, hok]
  have hone : prepareOneRoute c.orderedStreamList route
      = { route with boundStream := some s.sid, isUsed := true } := by
    simp [prepareOneRoute, hunused, hset]
  have hmap : c.prepareRouting.routes
      = c.routes.map (fun e => (e.1, prepareOneRoute c.orderedStreamList e.2))
      := by
    simpa [StreamRouteCollection.prepareRouting] using
      prepareRouting_foldl_fst c.orderedStreamList c.routes [] c.masksOut
        c.masksIn
  obtain ⟨l1, l2, hsplit⟩ := List.append_of_mem hmem
  have hfold : c.routes.foldl (prepareRouteStep c.orderedStreamList)
        ([], c.masksOut, c.masksIn)
      = l2.foldl (prepareRouteStep c.orderedStreamList)
          (prepareRouteStep c.orderedStreamList
            (l1.foldl (prepareRouteStep c.orderedStreamList)
              ([], c.masksOut, c.masksIn)) (k, route)) := by
    rw [hsplit, List.foldl_append, List.foldl_cons]
  have hstep := prepareRouteStep_success c.orderedStreamList
    (l1.foldl (prepareRouteStep c.orderedStreamList)
      ([], c.masksOut, c.masksIn)) k route
    { route with boundStream := some s.sid } hunused hset
  have hmono := prepareRouting_foldl_maskGrows c.orderedStreamList l2
    (prepareRouteStep c.orderedStreamList
      (l1.foldl (prepareRouteStep c.orderedStreamList)
        ([], c.masksOut, c.masksIn)) (k, route)).1
    (prepareRouteStep c.orderedStreamList
      (l1.foldl (prepareRouteStep c.orderedStreamList)
        ([], c.masksOut, c.masksIn)) (k, route)).2.1
    (prepareRouteStep c.orderedStreamList
      (l1.foldl (prepareRouteStep c.orderedStreamList)
        ([], c.masksOut, c.masksIn)) (k, route)).2.2
  refine ⟨hset, ?_, ?_, ?_, ?_⟩
  · rw [hmap]
    have hin := List.mem_map_of_mem
      (fun e => (e.1, prepareOneRoute c.orderedStreamList e.2)) hmem
    simpa [hone] using hin
  · intro i hi
    have hstart : (prepareRouteStep c.orderedStreamList
        (l1.foldl (prepareRouteStep c.orderedStreamList)
          ([], c.masksOut, c.masksIn)) (k, route)).2.1.enabled.testBit i
          = true ∨ route.isOut = false := by
      cases ho : route.isOut with
      | false => exact Or.inr rfl
      | true =>
        refine Or.inl ?_
        rw [hstep]
        simp only [ho, if_pos]
        rw [maskUpdate_enabled]
        simp [Nat.testBit_lor, hi]
    have hstartIn : (prepareRouteStep c.orderedStreamList
        (l1.foldl (prepareRouteStep c.orderedStreamList)
          ([], c.masksOut, c.masksIn)) (k, route)).2.2.enabled.testBit i
          = true ∨ route.isOut = true := by
      cases ho : route.isOut with
      | true => exact Or.inr rfl
      | false =>
        refine Or.inl ?_
        rw [hstep]
        simp only [ho]
        rw [if_neg (by simp), maskUpdate_enabled]
        simp [Nat.testBit_lor, hi]
    cases ho : route.isOut with
    | true =>
      have h1 := hstart.resolve_right (by simp [ho])
      have := hmono.1.1 i h1
      simpa [StreamRouteCollection.prepareRouting,
        StreamRouteCollection.routeMasks, ho, hfold] using this
    | false =>
      have h1 := hstartIn.resolve_right (by simp [ho])
      have := hmono.2.1 i h1
      simpa [StreamRouteCollection.prepareRouting,
        StreamRouteCollection.routeMasks, ho, hfold] using this
  · intro hflag i hi
    have hupd : ∀ m : RouteMasks,
        (maskUpdate { route with boundStream := some s.sid, isUsed := true }
          m).needReflow.testBit i = true := by
      intro m
      simp [maskUpdate_needReflow, hflag, Nat.testBit_lor, hi]
    cases ho : route.isOut with
    | true =>
      have h1 : (prepareRouteStep c.orderedStreamList
          (l1.foldl (prepareRouteStep c.orderedStreamList)
            ([], c.masksOut, c.masksIn)) (k, route)).2.1.needReflow.testBit i
            = true := by
        rw [hstep]
        simp only [ho, if_pos]
        exact hupd _
      have := hmono.1.2.1 i h1
      simpa [StreamRouteCollection.prepareRouting,
        StreamRouteCollection.routeMasks, ho, hfold] using this
    | false =>
      have h1 : (prepareRouteStep c.orderedStreamList
          (l1.foldl (prepareRouteStep c.orderedStreamList)
            ([], c.masksOut, c.masksIn)) (k, route)).2.2.needReflow.testBit i
            = true := by
        rw [hstep]
        simp only [ho]
        rw [if_neg (by simp)]
        exact hupd _
      have := hmono.2.2.1 i h1
      simpa [StreamRouteCollection.prepareRouting,
        StreamRouteCollection.routeMasks, ho, hfold] using this
  · intro hflag i hi
    have hupd : ∀ m : RouteMasks,
        (maskUpdate { route with boundStream := some s.sid, isUsed := true }
          m).needRepath.testBit i = true := by
      intro m
      simp [maskUpdate_needRepath, hflag, Nat.testBit_lor, hi]
    cases ho : route.isOut with
    | true =>
      have h1 : (prepareRouteStep c.orderedStreamList
          (l1.foldl (prepareRouteStep c.orderedStreamList)
            ([], c.masksOut, c.masksIn)) (k, route)).2.1.needRepath.testBit i
            = true := by
        rw [hstep]
        simp only [ho, if_pos]
        exact hupd _
      have := hmono.1.2.2.1 i h1
      simpa [StreamRouteCollection.prepareRouting,
        StreamRouteCollection.routeMasks, ho, hfold] using this
    | false =>
      have h1 : (prepareRouteStep c.orderedStreamList
          (l1.foldl (prepareRouteStep c.orderedStreamList)
            ([], c.masksOut, c.masksIn)) (k, route)).2.2.needRepath.testBit i
            = true := by
        rw [hstep]
        simp only [ho]
        rw [if_neg (by simp)]
        exact hupd _
      have := hmono.2.2.2.1 i h1
      simpa [StreamRouteCollection.prepareRouting,
        StreamRouteCollection.routeMasks, ho, hfold] using this

/-- A concrete output route for exercising claim C2: unused, mask 1,
matching and accepting every stream. -/
def sampleRouteC2 : AudioStreamRoute :=
  ⟨"Media", true, 1, false, false, false, false, fun _ => true,
    fun _ => true, none⟩

/-- A concrete started, policy-routed, non-direct output stream. -/
def sampleStreamC2 : IoStream :=
  ⟨7, true, false, true, true, false⟩

/-- A collection holding only the claim C2 sample route and stream. -/
def sampleCollectionC2 : StreamRouteCollection :=
  ⟨[("Media_Playback", sampleRouteC2)], [sampleStreamC2], [],
    ⟨0, 0, 0, 0⟩, ⟨0, 0, 0, 0⟩⟩

/-- Witness for claim C2 at a concrete input. -/
theorem C2_witness :
    ("Media_Playback",
        { sampleRouteC2 with boundStream := some 7, isUsed := true })
      ∈ sampleCollectionC2.prepareRouting.routes
  ∧ (sampleCollectionC2.prepareRouting.routeMasks true).enabled.testBit 0
      = true :=
  ⟨(C2_match_phase sampleCollectionC2 "Media_Playback" sampleRouteC2
      sampleStreamC2 (List.mem_singleton.mpr rfl) rfl rfl rfl).2.1,
   (C2_match_phase sampleCollectionC2 "Media_Playback" sampleRouteC2
      sampleStreamC2 (List.mem_singleton.mpr rfl) rfl rfl rfl).2.2.1 0
      (by decide)⟩

/-- Claim C8: `addStream` puts a direct stream at the front of its direction
list and any other stream at the back; hence after adding a non-direct
stream and then a direct one in the same direction, the direct stream heads
the list and the matching scan hands the route to it first. -/
theorem C8_addStream_direct_priority (c : StreamRouteCollection)
    (s1 s2 : IoStream) (d : Bool)
    (h1 : s1.isDirect = false) (h2 : s2.isDirect = true)
    (hd1 : s1.isOut = d) (hd2 : s2.isOut = d) :
    (∀ t : IoStream, (c.addStream t).orderedStreamList t.isOut
        = if t.isDirect then t :: c.orderedStreamList t.isOut
          else c.orderedStreamList t.isOut ++ [t])
  ∧ ((c.addStream s1).addStream s2).orderedStreamList d
      = s2 :: (c.orderedStreamList d ++ [s1])
  ∧ (∀ route : AudioStreamRoute, route.isOut = d →
      streamEligible s2 = true → route.matchesStream s2 = true →
      setStreamForRoute route
          (((c.addStream s1).addStream s2).orderedStreamList route.isOut)
        = route.setStream s2) := by
  have hgen : ∀ (c0 : StreamRouteCollection) (t : IoStream),
      (c0.addStream t).orderedStreamList t.isOut
        = if t.isDirect then t :: c0.orderedStreamList t.isOut
          else c0.orderedStreamList t.isOut ++ [t] := by
    intro c0 t
    cases ht : t.isDirect <;> cases ho : t.isOut <;>
      simp [StreamRouteCollection.addStream,
        StreamRouteCollection.orderedStreamList, ht, ho]
  have e1 := hgen c s1
  rw [hd1, h1, if_neg (by simp)] at e1
  have e2 := hgen (c.addStream s1) s2
  rw [hd2, h2, if_pos rfl] at e2
  have hlist : ((c.addStream s1).addStream s2).orderedStreamList d
      = s2 :: (c.orderedStreamList d ++ [s1]) := by
    rw [e2, e1]
  refine ⟨hgen c, hlist, ?_⟩
  intro route hro he hm
  rw [hro, hlist, setStreamForRoute]
  have he2 : (s2.isStarted && s2.isRoutedByPolicy && !s2.isNewRouteAvailable)
      = true := by
    simpa [streamEligible] using he
  rw [if_pos he2, if_pos hm]

/-- The empty collection used by the claim C8 witness. -/
def sampleCollectionC8 : StreamRouteCollection :=
  ⟨[], [], [], ⟨0, 0, 0, 0⟩, ⟨0, 0, 0, 0⟩⟩

/-- A non-direct eligible output stream, added first. -/
def sampleStreamC8a : IoStream :=
  ⟨1, true, false, true, true, false⟩

/-- A direct eligible output stream, added second. -/
def sampleStreamC8b : IoStream :=
  ⟨2, true, true, true, true, false⟩

/-- An output route matching every stream, for the claim C8 witness. -/
def sampleRouteC8 : AudioStreamRoute :=
  ⟨"Direct", true, 2, false, false, false, false, fun _ => true,
    fun _ => true, none⟩

/-- Witness for claim C8 at a concrete input. -/
theorem C8_witness :
    ((sampleCollectionC8.addStream sampleStreamC8a).addStream
        sampleStreamC8b).orderedStreamList true
      = sampleStreamC8b :: (sampleCollectionC8.orderedStreamList true
          ++ [sampleStreamC8a])
  ∧ setStreamForRoute sampleRouteC8
        (((sampleCollectionC8.addStream sampleStreamC8a).addStream
          sampleStreamC8b).orderedStreamList sampleRouteC8.isOut)
      = sampleRouteC8.setStream sampleStreamC8b :=
  ⟨(C8_addStream_direct_priority sampleCollectionC8 sampleStreamC8a
      sampleStreamC8b true rfl rfl rfl rfl).2.1,
   (C8_addStream_direct_priority sampleCollectionC8 sampleStreamC8a
      sampleStreamC8b true rfl rfl rfl rfl).2.2 sampleRouteC8 rfl rfl rfl⟩

/-- A scan skips any prefix whose streams all fail the combined
eligible-and-matching test. -/
lemma find?_append_of_forall_false {p : IoStream → Bool} :
    ∀ (pre l : List IoStream), (∀ t ∈ pre, p t = false) →
      (pre ++ l).find? p = l.find? p := by
  intro pre
  induction pre with
  | nil => intro l _; rfl
  | cons x xs ih =>
    intro l hall
    have hx : p x = false := hall x (by simp)
    rw [List.cons_append, List.find?_cons]
    simp only [hx]
    exact ih l (fun t ht => hall t (by simp [ht]))

/-- Claim C9: when the first eligible matching stream of the list is refused
by the external `setStream`, the scan stops with failure: the result does
not depend on any later stream (a later eligible matching stream is never
offered the route), the route is returned unchanged, and `prepareRouting`
leaves the route unused. -/
theorem C9_setStream_failure_stops_scan (route : AudioStreamRoute)
    (pre mid post : List IoStream) (s1 s2 : IoStream)
    (hpre : ∀ t ∈ pre, (streamEligible t && route.matchesStream t) = false)
    (h1e : streamEligible s1 = true) (h1m : route.matchesStream s1 = true)
    (h1f : route.acceptsStream s1 = false)
    (h2e : streamEligible s2 = true)
    (h2m : route.matchesStream s2 = true) :
    setStreamForRoute route (pre ++ s1 :: (mid ++ s2 :: post))
      = (route, false)
  ∧ ∀ (c : StreamRouteCollection) (k : String),
      (k, route) ∈ c.routes → route.isUsed = false →
      c.orderedStreamList route.isOut = pre ++ s1 :: (mid ++ s2 :: post) →
      (k, route) ∈ c.prepareRouting.routes := by
  have hfind : (pre ++ s1 :: (mid ++ s2 :: post)).find?
      (fun t => streamEligible t && route.matchesStream t) = some s1 := by
    rw [find?_append_of_forall_false pre _ hpre, List.find?_cons]
    simp [h1e, h1m]
  have hmain : setStreamForRoute route (pre ++ s1 :: (mid ++ s2 :: post))
      = (route, false) := by
    rw [setStreamForRoute_eq_find, hfind]
    simp [AudioStreamRoute.setStream, h1f]
  refine ⟨hmain, ?_⟩
  intro c k hmem hunused hlist
  have hone : prepareOneRoute c.orderedStreamList route = route := by
    simp [prepareOneRoute, hunused, hlist, hmain]
  have hmap : c.prepareRouting.routes
      = c.routes.map (fun e => (e.1, prepareOneRoute c.orderedStreamList e.2))
      := by
    simpa [StreamRouteCollection.prepareRouting] using
      prepareRouting_foldl_fst c.orderedStreamList c.routes [] c.masksOut
        c.masksIn
  rw [hmap]
  have hin := List.mem_map_of_mem
    (fun e => (e.1, prepareOneRoute c.orderedStreamList e.2)) hmem
  simpa [hone] using hin

/-- An output route matching every stream but accepted by none, for the
claim C9 witness. -/
def sampleRouteC9 : AudioStreamRoute :=
  ⟨"Refusing", true, 4, false, false, false, false, fun _ => true,
    fun _ => false, none⟩

/-- First eligible matching output stream of the claim C9 witness. -/
def sampleStreamC9a : IoStream :=
  ⟨1, true, false, true, true, false⟩

/-- Second eligible matching output stream of the claim C9 witness. -/
def sampleStreamC9b : IoStream :=
  ⟨2, true, false, true, true, false⟩

/-- Witness for claim C9 at a concrete input. -/
theorem C9_witness :
    setStreamForRoute sampleRouteC9
        ([] ++ sampleStreamC9a :: ([] ++ sampleStreamC9b :: []))
      = (sampleRouteC9, false) :=
  (C9_setStream_failure_stops_scan sampleRouteC9 [] [] [] sampleStreamC9a
    sampleStreamC9b (by simp) rfl rfl rfl rfl rfl).1

end AudioHal
